import Mathlib

/-!
# Verification of the Caleb dungeon-game simulation core

Shallow embedding of the simulation engine in `src/components/GameCanvas.tsx`
(with static configuration from the repository's `constants` module:
`CONFIG = { WIDTH: 800, HEIGHT: 400, TILE_SIZE: 40, GRAVITY: 0.8, MAX_VEL_Y: 15 }`
and the `SHOP_ITEMS` table), together with proofs of the specified properties.

JavaScript numbers are modelled as rationals (`ℚ`) where fractional values can
occur (positions, velocities, enemy hitpoints, cooldowns) and as integers where
the code only ever performs integral arithmetic (player hitpoints, money, timers).
-/

namespace Caleb

/-- Difficulty tiers, from `types.ts`. -/
inductive Difficulty
  | EASY
  | NORMAL
  | HARD
  | IMPOSSIBLE
deriving DecidableEq

/-- Top-level game states, from `types.ts`. -/
inductive GameState
  | MENU
  | PLAYING
  | SHOP
  | GAMEOVER
  | VICTORY
  | BOSS_INTRO
  | EXITING
deriving DecidableEq

/-- Boss phase states, from the `bossState` field in `types.ts`. -/
inductive BossState
  | IDLE
  | ATTACK
  | SLEEP
deriving DecidableEq

/-- Feedback-effect kinds.  Each constructor corresponds to one `addEffect`
call site in `GameCanvas.tsx`; the screen position, text formatting and color
are render hints and are not modelled. -/
inductive EffectKind
  | invulnerable
  | crit
  | damageNum (n : ℤ)
  | bounty
  | countdown (n : ℤ)
  | asleep
  | wakeUp
deriving DecidableEq

/-- The `Enemy` record from `types.ts`.  The optional `bossState` field is an
`Option`; `attackCount` is accessed in the code as `(enemy.attackCount || 0)`
and is only ever a natural number. -/
structure Enemy where
  x : ℚ
  y : ℚ
  w : ℚ
  h : ℚ
  vx : ℚ
  vy : ℚ
  onGround : Bool
  dead : Bool
  type : String
  maxHp : ℚ
  hp : ℚ
  damage : ℚ
  speed : ℚ
  patrolDir : ℤ
  hitTimer : ℤ
  isBoss : Bool
  attackCooldown : ℚ
  bossState : Option BossState
  sleepTimer : ℤ
  attackCount : ℕ
deriving DecidableEq

/-- The `Player` record from `types.ts`.  Hitpoints, max hitpoints and money
only ever change by integral amounts in the code, so they are `ℤ`; the
invincibility countdown is set to 60 and decremented while positive, so it is
a natural number. -/
structure Player where
  x : ℚ
  y : ℚ
  w : ℚ
  h : ℚ
  vx : ℚ
  vy : ℚ
  onGround : Bool
  dead : Bool
  hp : ℤ
  maxHp : ℤ
  money : ℤ
  facing : ℤ
  weapon : String
  inventory : List String
  hasArmor : Bool
  invincibleTimer : ℕ
  attackCooldown : ℚ
deriving DecidableEq

/-- The `Projectile` record from `types.ts` (`owner` is `"player"` or
`"enemy"`; `color` is a render hint and dropped). -/
structure Projectile where
  x : ℚ
  y : ℚ
  w : ℚ
  h : ℚ
  vx : ℚ
  vy : ℚ
  onGround : Bool
  dead : Bool
  damage : ℚ
  owner : String
  lifetime : ℤ
deriving DecidableEq

/-- Axis-aligned box view used by `checkCollision`. -/
structure Box where
  x : ℚ
  y : ℚ
  w : ℚ
  h : ℚ
deriving DecidableEq

def Enemy.box (e : Enemy) : Box := ⟨e.x, e.y, e.w, e.h⟩

def Projectile.box (p : Projectile) : Box := ⟨p.x, p.y, p.w, p.h⟩

def Player.box (p : Player) : Box := ⟨p.x, p.y, p.w, p.h⟩

/-- `checkCollision` from `GameCanvas.tsx` (strict AABB overlap). -/
def checkCollision (a b : Box) : Bool :=
  if a.x < b.x + b.w ∧ a.x + a.w > b.x ∧ a.y < b.y + b.h ∧ a.y + a.h > b.y then
    true
  else false

/-- `CONFIG.TILE_SIZE`. -/
def TILE_SIZE : ℚ := 40

/-- `CONFIG.GRAVITY`. -/
def GRAVITY : ℚ := 4 / 5

/-- `CONFIG.MAX_VEL_Y`. -/
def MAX_VEL_Y : ℚ := 15

/-- The current room's grid: `currentRoom.rows/cols` plus `mapTiles`. -/
structure Room where
  rows : ℤ
  cols : ℤ
  mapTiles : List (List ℤ)
deriving DecidableEq

/-- `getTile` from `GameCanvas.tsx`: returns 1 (solid) when the room is empty
(`!currentRoom.rows`) or the coordinate is out of range, otherwise reads
`mapTiles[y][x]`. -/
def getTile (room : Room) (x y : ℤ) : ℤ :=
  if room.rows = 0 then 1
  else if x < 0 ∨ room.cols ≤ x ∨ y < 0 ∨ room.rows ≤ y then 1
  else (room.mapTiles.getD y.toNat []).getD x.toNat 0

/-- The wall-removal loop run by the victory sequence:
`for (let r = 0; r < rows; r++) mapTiles[r][cols-1] = 0`. -/
def clearRightWall (rows cols : ℕ) (tiles : List (List ℤ)) : List (List ℤ) :=
  (List.range rows).foldl
    (fun ts r => ts.set r ((ts.getD r []).set (cols - 1) 0)) tiles

/-- The parts of the shared game context that `damageEnemy` reads or writes:
the player's money, the room grid, the victory flags/state, the deferred
victory callback (`setTimeout(onVictory, delay)` modelled as the recorded
delay), the `onUnlockImpossible` callback (modelled as a flag) and the
feedback-effect log. -/
structure DamageCtx where
  playerMoney : ℤ
  rows : ℕ
  cols : ℕ
  mapTiles : List (List ℤ)
  victoryExiting : Bool
  gameState : GameState
  victoryDelay : Option ℕ
  unlockImpossible : Bool
  effects : List EffectKind
deriving DecidableEq

/-- `damageEnemy(e, amt)` from `GameCanvas.tsx` (lines 526-565).  The terminal
boss (`isBoss && type === 'IMPOSSIBLE_FINAL_BOSS'`) is invulnerable outside
SLEEP, and in SLEEP loses exactly 1 hitpoint per call; death there clears the
right-hand wall column and schedules the victory callback after 2500 ms.  All
other enemies lose `amt`; death awards a bounty (50 for boss-tier types, else
5) and, for a mid boss on HARD, requests the IMPOSSIBLE unlock. -/
def damageEnemy (difficulty : Difficulty) (e : Enemy) (amt : ℚ) (ctx : DamageCtx) :
    Enemy × DamageCtx :=
  if e.isBoss = true ∧ e.type = "IMPOSSIBLE_FINAL_BOSS" then
    if e.bossState ≠ some BossState.SLEEP then
      (e, { ctx with effects := ctx.effects ++ [EffectKind.invulnerable] })
    else
      let e1 := { e with hp := e.hp - 1, hitTimer := 10 }
      let ctx1 := { ctx with effects := ctx.effects ++ [EffectKind.crit] }
      if e1.hp ≤ 0 then
        ({ e1 with dead := true },
         { ctx1 with
             victoryExiting := true
             gameState := GameState.EXITING
             mapTiles := clearRightWall ctx1.rows ctx1.cols ctx1.mapTiles
             victoryDelay := some 2500 })
      else
        (e1, ctx1)
  else
    let e1 := { e with hp := e.hp - amt, hitTimer := 10 }
    let ctx1 := { ctx with effects := ctx.effects ++ [EffectKind.damageNum (round amt)] }
    if e1.hp ≤ 0 then
      ({ e1 with dead := true },
       { ctx1 with
           playerMoney := ctx1.playerMoney +
             (if e.type = "BOSS" ∨ e.type = "MID_BOSS" then 50 else 5)
           effects := ctx1.effects ++ [EffectKind.bounty]
           unlockImpossible :=
             if e.type = "MID_BOSS" ∧ difficulty = Difficulty.HARD then true
             else ctx1.unlockImpossible })
    else
      (e1, ctx1)

/-- The terminal boss exactly as constructed in `initLevel`
(`GameCanvas.tsx` lines 256-262). -/
def initBoss : Enemy :=
  { x := 800 / 2 - 50
    y := 400 - 40 * 2 - 100
    w := 100
    h := 100
    vx := 0
    vy := 0
    onGround := false
    dead := false
    type := "IMPOSSIBLE_FINAL_BOSS"
    maxHp := 3
    hp := 3
    damage := 3
    speed := 0
    patrolDir := 1
    hitTimer := 0
    isBoss := true
    attackCooldown := 90
    bossState := some BossState.ATTACK
    sleepTimer := 0
    attackCount := 0 }

/-- The 16 radial salvo directions fired by the terminal boss, as fractions of
a full turn: the code computes the angle of projectile `i` as
`(i/16) * Math.PI * 2`. -/
def radialSalvo : List ℚ := (List.range 16).map (fun i : ℕ => (i : ℚ) / 16)

/-- Result of one tick of the terminal boss's own update: the updated boss,
the directions (fractions of a full turn) of projectiles fired this tick, and
the feedback effects emitted. -/
structure BossTickOut where
  boss : Enemy
  salvo : List ℚ
  effects : List EffectKind
deriving DecidableEq

/-- The terminal boss's per-tick update from `updateEntities`
(`GameCanvas.tsx` lines 616-617 and 688-717): the shared hit-flash decrement,
then the ATTACK/SLEEP phase machine.  In ATTACK, the cooldown is decremented
and on expiry the boss fires a 16-projectile radial salvo, resets the cooldown
to 50, increments the attack counter and, once the counter reaches 10, falls
asleep for 300 ticks.  In SLEEP the timer is decremented and on expiry the
boss returns to ATTACK with the counter reset to 0. -/
def bossTick (e0 : Enemy) : BossTickOut :=
  let e := if e0.hitTimer > 0 then { e0 with hitTimer := e0.hitTimer - 1 } else e0
  if e.bossState = some BossState.ATTACK then
    let e1 := { e with attackCooldown := e.attackCooldown - 1 }
    if e1.attackCooldown ≤ 0 then
      let e2 := { e1 with attackCooldown := 50, attackCount := e1.attackCount + 1 }
      let eff := [EffectKind.countdown (10 - (e2.attackCount : ℤ))]
      if 10 ≤ e2.attackCount then
        ⟨{ e2 with bossState := some BossState.SLEEP, sleepTimer := 300 },
          radialSalvo, eff ++ [EffectKind.asleep]⟩
      else
        ⟨e2, radialSalvo, eff⟩
    else
      ⟨e1, [], []⟩
  else if e.bossState = some BossState.SLEEP then
    let e1 := { e with sleepTimer := e.sleepTimer - 1 }
    if e1.sleepTimer ≤ 0 then
      ⟨{ e1 with bossState := some BossState.ATTACK, attackCount := 0 }, [],
        [EffectKind.wakeUp]⟩
    else
      ⟨e1, [], []⟩
  else
    ⟨e, [], []⟩

/-! ## Helper lemmas about `clearRightWall` -/

lemma clearRightWall_succ (n cols : ℕ) (tiles : List (List ℤ)) :
    clearRightWall (n + 1) cols tiles =
      (clearRightWall n cols tiles).set n
        (((clearRightWall n cols tiles).getD n []).set (cols - 1) 0) := by
  unfold clearRightWall
  rw [List.range_succ, List.foldl_append, List.foldl_cons, List.foldl_nil]

lemma clearRightWall_length (rows cols : ℕ) (tiles : List (List ℤ)) :
    (clearRightWall rows cols tiles).length = tiles.length := by
  induction rows with
  | zero => simp [clearRightWall]
  | succ n ih => rw [clearRightWall_succ, List.length_set]; exact ih

lemma clearRightWall_getD (rows cols : ℕ) (tiles : List (List ℤ)) (r : ℕ) :
    (clearRightWall rows cols tiles).getD r [] =
      if r < rows then (tiles.getD r []).set (cols - 1) 0 else tiles.getD r [] := by
  induction rows with
  | zero => simp [clearRightWall]
  | succ n ih =>
    rw [clearRightWall_succ, List.getD_eq_getElem?_getD, List.getElem?_set]
    by_cases hr : n = r
    · subst hr
      by_cases hlen : n < (clearRightWall n cols tiles).length
      · have h1 : (clearRightWall n cols tiles).getD n [] = tiles.getD n [] := by
          rw [ih]; simp
        rw [if_pos rfl, if_pos hlen, Option.getD_some, h1, if_pos (Nat.lt_succ_self n)]
      · rw [if_pos rfl, if_neg hlen]
        rw [clearRightWall_length] at hlen
        simp [Nat.lt_succ_self,
          List.getElem?_eq_none (show tiles.length ≤ n by omega)]
    · rw [if_neg hr, ← List.getD_eq_getElem?_getD, ih]
      by_cases h2 : r < n
      · rw [if_pos h2, if_pos (by omega)]
      · rw [if_neg h2, if_neg (by omega)]

/-! ## C1: damageEnemy on the terminal boss -/

/-- C1: For every `damageEnemy(boss, amt)` call on the terminal boss
(`type = 'IMPOSSIBLE_FINAL_BOSS'`): in the ATTACK phase the call leaves the
whole boss unchanged and only appends an INVULNERABLE feedback effect; in the
SLEEP phase the call reduces hitpoints by exactly 1 regardless of `amt`, and
when hitpoints reach 0 the boss is marked dead, the right-hand border wall
column is cleared, and the victory callback is scheduled (after 2500 ms). -/
theorem damageEnemy_finalBoss_spec
    (difficulty : Difficulty) (e : Enemy) (amt : ℚ) (ctx : DamageCtx)
    (hb : e.isBoss = true) (ht : e.type = "IMPOSSIBLE_FINAL_BOSS")
    (hrows : ctx.mapTiles.length = ctx.rows)
    (hcols : ∀ row ∈ ctx.mapTiles, row.length = ctx.cols)
    (hcpos : 0 < ctx.cols) :
    (e.bossState = some BossState.ATTACK →
      damageEnemy difficulty e amt ctx =
        (e, { ctx with effects := ctx.effects ++ [EffectKind.invulnerable] })) ∧
    (e.bossState = some BossState.SLEEP →
      (damageEnemy difficulty e amt ctx).1.hp = e.hp - 1 ∧
      (e.hp - 1 ≤ 0 →
        (damageEnemy difficulty e amt ctx).1.dead = true ∧
        (damageEnemy difficulty e amt ctx).2.victoryExiting = true ∧
        (damageEnemy difficulty e amt ctx).2.victoryDelay = some 2500 ∧
        (damageEnemy difficulty e amt ctx).2.mapTiles =
          clearRightWall ctx.rows ctx.cols ctx.mapTiles ∧
        (∀ r : ℕ, r < ctx.rows →
          (((damageEnemy difficulty e amt ctx).2.mapTiles.getD r []).getD
            (ctx.cols - 1) 1) = 0)) ∧
      (0 < e.hp - 1 →
        (damageEnemy difficulty e amt ctx).1.dead = e.dead ∧
        (damageEnemy difficulty e amt ctx).2.victoryDelay = ctx.victoryDelay)) := by
  constructor
  · intro hatk
    have hne : e.bossState ≠ some BossState.SLEEP := by rw [hatk]; simp
    simp [damageEnemy, hb, ht, hne]
  · intro hslp
    have hne : ¬ e.bossState ≠ some BossState.SLEEP := by rw [hslp]; simp
    by_cases hhp : e.hp - 1 ≤ 0
    · refine ⟨?_, fun _ => ⟨?_, ?_, ?_, ?_, ?_⟩, fun h0 => absurd hhp (by exact not_le.mpr h0)⟩
      · simp [damageEnemy, hb, ht, hne, hhp]
      · simp [damageEnemy, hb, ht, hne, hhp]
      · simp [damageEnemy, hb, ht, hne, hhp]
      · simp [damageEnemy, hb, ht, hne, hhp]
      · simp [damageEnemy, hb, ht, hne, hhp]
      · intro r hr
        have hmap : (damageEnemy difficulty e amt ctx).2.mapTiles =
            clearRightWall ctx.rows ctx.cols ctx.mapTiles := by
          simp [damageEnemy, hb, ht, hne, hhp]
        rw [hmap, clearRightWall_getD, if_pos hr]
        have hrlen : r < ctx.mapTiles.length := by omega
        have hrow : ctx.mapTiles.getD r [] ∈ ctx.mapTiles := by
          rw [List.getD_eq_getElem?_getD, List.getElem?_eq_getElem hrlen]
          exact List.getElem_mem _
        have hlen : (ctx.mapTiles.getD r []).length = ctx.cols := hcols _ hrow
        rw [List.getD_eq_getElem?_getD, List.getElem?_set]
        rw [if_pos rfl, if_pos (by omega)]
        rfl
    · have hhp' : ¬ ({ e with hp := e.hp - 1, hitTimer := 10 } : Enemy).hp ≤ 0 := hhp
      refine ⟨?_, fun h0 => absurd h0 (by push_neg; linarith [not_le.mp hhp]), fun _ => ⟨?_, ?_⟩⟩
      · simp [damageEnemy, hb, ht, hne, hhp]
      · simp [damageEnemy, hb, ht, hne, hhp]
      · simp [damageEnemy, hb, ht, hne, hhp]

/-- Context used to witness the claims concretely. -/
def wCtx : DamageCtx :=
  { playerMoney := 0
    rows := 2
    cols := 2
    mapTiles := [[1, 1], [1, 1]]
    victoryExiting := false
    gameState := GameState.PLAYING
    victoryDelay := none
    unlockImpossible := false
    effects := [] }

/-- The terminal boss asleep at 1 hitpoint. -/
def wSleepBoss : Enemy := { initBoss with bossState := some BossState.SLEEP, hp := 1 }

/-- Witness for C1: evaluating `damageEnemy` on a concrete sleeping boss at
1 hp (killed by a 99-damage hit, losing exactly 1 hp) and on the concrete
freshly spawned attacking boss (unharmed). -/
theorem damageEnemy_finalBoss_spec_witness :
    (damageEnemy Difficulty.IMPOSSIBLE wSleepBoss 99 wCtx).1.hp = 0 ∧
    (damageEnemy Difficulty.IMPOSSIBLE wSleepBoss 99 wCtx).1.dead = true ∧
    (damageEnemy Difficulty.IMPOSSIBLE wSleepBoss 99 wCtx).2.victoryDelay = some 2500 ∧
    ((damageEnemy Difficulty.IMPOSSIBLE wSleepBoss 99 wCtx).2.mapTiles.getD 0 []).getD 1 1 = 0 ∧
    damageEnemy Difficulty.IMPOSSIBLE initBoss 5 wCtx =
      (initBoss, { wCtx with effects := [EffectKind.invulnerable] }) := by
  have hs := damageEnemy_finalBoss_spec Difficulty.IMPOSSIBLE wSleepBoss 99 wCtx
    (by decide) (by decide) (by decide) (by decide) (by decide)
  have ha := damageEnemy_finalBoss_spec Difficulty.IMPOSSIBLE initBoss 5 wCtx
    (by decide) (by decide) (by decide) (by decide) (by decide)
  have hs1 := hs.2 (by decide)
  have hs2 := hs1.2.1 (by norm_num [wSleepBoss])
  refine ⟨by rw [hs1.1]; norm_num [wSleepBoss], hs2.1, hs2.2.2.1, ?_, ?_⟩
  · have := hs2.2.2.2.2 0 (by decide)
    simpa [wCtx] using this
  · have := ha.1 (by decide)
    simpa [wCtx] using this

/-! ## C2: the terminal boss's phase machine -/

lemma radialSalvo_getD (i : ℕ) (hi : i < 16) : radialSalvo.getD i 0 = (i : ℚ) / 16 := by
  rw [radialSalvo, List.getD_eq_getElem?_getD, List.getElem?_map, List.getElem?_range hi]
  rfl

/-- C2: The terminal boss's phase machine starts in ATTACK (with attack
counter 0); in ATTACK each expiry of the attack cooldown fires one radial
salvo of 16 evenly spaced projectiles (directions `i/16` of a full turn) and
increments the attack counter, and exactly when the counter reaches 10 the
boss transitions to SLEEP with `sleepTimer = 300`; in SLEEP the timer counts
down once per tick and on expiry the boss transitions back to ATTACK with the
counter reset to 0; and no other phase transition occurs in the per-tick
update. -/
theorem finalBoss_phase_machine :
    (initBoss.bossState = some BossState.ATTACK ∧ initBoss.attackCount = 0) ∧
    (∀ e : Enemy, e.bossState = some BossState.ATTACK →
      (1 < e.attackCooldown →
        (bossTick e).boss.bossState = some BossState.ATTACK ∧
        (bossTick e).boss.attackCount = e.attackCount ∧
        (bossTick e).boss.attackCooldown = e.attackCooldown - 1 ∧
        (bossTick e).salvo = []) ∧
      (e.attackCooldown ≤ 1 →
        (bossTick e).salvo = radialSalvo ∧
        (bossTick e).boss.attackCount = e.attackCount + 1 ∧
        (bossTick e).boss.attackCooldown = 50 ∧
        (e.attackCount + 1 < 10 →
          (bossTick e).boss.bossState = some BossState.ATTACK) ∧
        (10 ≤ e.attackCount + 1 →
          (bossTick e).boss.bossState = some BossState.SLEEP ∧
          (bossTick e).boss.sleepTimer = 300))) ∧
    (∀ e : Enemy, e.bossState = some BossState.SLEEP →
      (bossTick e).boss.sleepTimer = e.sleepTimer - 1 ∧
      (bossTick e).salvo = [] ∧
      (e.sleepTimer ≤ 1 →
        (bossTick e).boss.bossState = some BossState.ATTACK ∧
        (bossTick e).boss.attackCount = 0) ∧
      (1 < e.sleepTimer → (bossTick e).boss.bossState = some BossState.SLEEP)) ∧
    (radialSalvo.length = 16 ∧
      (∀ i : ℕ, i < 15 → radialSalvo.getD (i + 1) 0 - radialSalvo.getD i 0 = 1 / 16)) ∧
    (∀ e : Enemy, (bossTick e).boss.bossState ≠ e.bossState →
      (e.bossState = some BossState.ATTACK ∧
        (bossTick e).boss.bossState = some BossState.SLEEP) ∨
      (e.bossState = some BossState.SLEEP ∧
        (bossTick e).boss.bossState = some BossState.ATTACK)) := by
  have hspace : ∀ i : ℕ, i < 15 →
      radialSalvo.getD (i + 1) 0 - radialSalvo.getD i 0 = 1 / 16 := by
    intro i hi
    rw [radialSalvo_getD i (by omega), radialSalvo_getD (i + 1) (by omega)]
    push_cast
    ring
  refine ⟨⟨rfl, rfl⟩, ?_, ?_, ⟨rfl, hspace⟩, ?_⟩
  · intro e hatk
    constructor
    · intro hcd
      have hcd' : ¬ e.attackCooldown - 1 ≤ 0 := by intro h; linarith
      by_cases hht : e.hitTimer > 0 <;>
        simp [bossTick, hht, hatk, hcd']
    · intro hcd
      have hcd' : e.attackCooldown - 1 ≤ 0 := by linarith
      by_cases hcnt : 10 ≤ e.attackCount + 1 <;>
        by_cases hht : e.hitTimer > 0 <;>
          simp [bossTick, hht, hatk, hcd', hcnt] <;>
            omega
  · intro e hslp
    have hne : e.bossState ≠ some BossState.ATTACK := by rw [hslp]; simp
    by_cases htm : e.sleepTimer - 1 ≤ 0
    · refine ⟨?_, ?_, fun _ => ⟨?_, ?_⟩, fun h1 => absurd htm (by omega)⟩ <;>
        by_cases hht : e.hitTimer > 0 <;>
          simp [bossTick, hht, hslp, hne, htm]
    · refine ⟨?_, ?_, fun h1 => absurd (show e.sleepTimer - 1 ≤ 0 by omega) htm,
        fun _ => ?_⟩ <;>
        by_cases hht : e.hitTimer > 0 <;>
          simp [bossTick, hht, hslp, hne, htm]
  · intro e hch
    rcases hs : e.bossState with _ | bs
    · exfalso
      apply hch
      by_cases hht : e.hitTimer > 0 <;> simp [bossTick, hht, hs]
    · rcases bs with _ | _ | _
      · exfalso
        apply hch
        by_cases hht : e.hitTimer > 0 <;> simp [bossTick, hht, hs]
      · by_cases hcd : e.attackCooldown - 1 ≤ 0
        · by_cases hcnt : 10 ≤ e.attackCount + 1
          · left
            refine ⟨rfl, ?_⟩
            by_cases hht : e.hitTimer > 0 <;> simp [bossTick, hht, hs, hcd, hcnt]
          · exfalso
            apply hch
            by_cases hht : e.hitTimer > 0 <;> simp [bossTick, hht, hs, hcd, hcnt]
        · exfalso
          apply hch
          by_cases hht : e.hitTimer > 0 <;> simp [bossTick, hht, hs, hcd]
      · by_cases htm : e.sleepTimer - 1 ≤ 0
        · right
          refine ⟨rfl, ?_⟩
          by_cases hht : e.hitTimer > 0 <;> simp [bossTick, hht, hs, htm]
        · exfalso
          apply hch
          by_cases hht : e.hitTimer > 0 <;> simp [bossTick, hht, hs, htm]

/-- The attacking boss one tick from firing its 10th salvo. -/
def wTenthSalvoBoss : Enemy := { initBoss with attackCooldown := 1, attackCount := 9 }

/-- The sleeping boss one tick from waking. -/
def wWakingBoss : Enemy :=
  { initBoss with bossState := some BossState.SLEEP, sleepTimer := 1 }

/-- Witness for C2: the freshly spawned boss is in ATTACK; a concrete boss
firing its 10th salvo emits the 16-direction salvo and falls asleep for 300
ticks; a concrete sleeping boss with an expiring timer wakes into ATTACK with
the counter reset. -/
theorem finalBoss_phase_machine_witness :
    initBoss.bossState = some BossState.ATTACK ∧
    (bossTick wTenthSalvoBoss).salvo = radialSalvo ∧
    (bossTick wTenthSalvoBoss).boss.bossState = some BossState.SLEEP ∧
    (bossTick wTenthSalvoBoss).boss.sleepTimer = 300 ∧
    (bossTick wWakingBoss).boss.bossState = some BossState.ATTACK ∧
    (bossTick wWakingBoss).boss.attackCount = 0 := by
  have h := finalBoss_phase_machine
  have h10 := (h.2.1 wTenthSalvoBoss (by decide)).2 (by norm_num [wTenthSalvoBoss, initBoss])
  have hw := h.2.2.1 wWakingBoss (by decide)
  have hw1 := hw.2.2.1 (by decide)
  exact ⟨h.1.1, h10.1, (h10.2.2.2.2 (by decide)).1, (h10.2.2.2.2 (by decide)).2,
    hw1.1, hw1.2⟩

/-! ## C3: room-archetype selection in `initLevel` -/

/-- The three room archetypes produced by `initLevel`. -/
inductive RoomKind
  | BOSS
  | SHOP
  | COMBAT
deriving DecidableEq

/-- The room-archetype selection of `initLevel` (`GameCanvas.tsx` lines
244-276): the boss arena when the difficulty is IMPOSSIBLE and the level is
10; otherwise the shop when `levelNum % 5 === 0` and not (level 10 on
IMPOSSIBLE); otherwise the regular combat room. -/
def roomKind (difficulty : Difficulty) (levelNum : ℕ) : RoomKind :=
  if difficulty = Difficulty.IMPOSSIBLE ∧ levelNum = 10 then RoomKind.BOSS
  else if levelNum % 5 = 0 ∧ ¬(levelNum = 10 ∧ difficulty = Difficulty.IMPOSSIBLE) then
    RoomKind.SHOP
  else RoomKind.COMBAT

/-- The enemy-type choice inside the combat-room branch (lines 303-311),
with the probabilistic archer/tank draws abstracted into the two boolean
draw outcomes: this is the only place a MID_BOSS can be created. -/
def combatEnemyType (difficulty : Difficulty) (levelNum : ℕ)
    (archerDraw tankDraw : Bool) : String :=
  if levelNum = 10 ∧ difficulty ≠ Difficulty.IMPOSSIBLE then "MID_BOSS"
  else
    let t := "NORMAL"
    let t := if 3 < levelNum ∧ archerDraw then "ARCHER" else t
    if 6 < levelNum ∧ tankDraw then "TANK" else t

/-- C3 evaluation: on every non-hardest difficulty, level 10 is generated as a
SHOP room, not a combat room — the `levelNum % 5 === 0` shop test captures
level 10 because its exception only covers IMPOSSIBLE, so the combat-room
branch (the only branch that can spawn the mid boss) is unreachable at level
10 for every difficulty. -/
theorem level10_nonImpossible_is_shop :
    roomKind Difficulty.EASY 10 = RoomKind.SHOP ∧
    roomKind Difficulty.NORMAL 10 = RoomKind.SHOP ∧
    roomKind Difficulty.HARD 10 = RoomKind.SHOP ∧
    roomKind Difficulty.IMPOSSIBLE 10 = RoomKind.BOSS ∧
    (∀ d : Difficulty, roomKind d 10 ≠ RoomKind.COMBAT) ∧
    (∀ d : Difficulty, d ≠ Difficulty.IMPOSSIBLE →
      combatEnemyType d 10 false false = "MID_BOSS") := by
  refine ⟨rfl, rfl, rfl, rfl, ?_, ?_⟩
  · intro d
    cases d <;> decide
  · intro d hd
    cases d <;> simp_all <;> rfl

/-! ## C5: out-of-range tile lookups -/

/-- C5: For every pair of integer coordinates outside the grid extent
(`x < 0`, `x ≥ cols`, `y < 0` or `y ≥ rows`), `getTile` returns the solid
code 1.  (The Lean embedding is total by construction, so no lookup outside
the grid list can occur.) -/
theorem getTile_out_of_bounds (room : Room) (x y : ℤ)
    (h : x < 0 ∨ room.cols ≤ x ∨ y < 0 ∨ room.rows ≤ y) :
    getTile room x y = 1 := by
  unfold getTile
  by_cases h0 : room.rows = 0
  · rw [if_pos h0]
  · rw [if_neg h0, if_pos h]

/-- Witness for C5: a concrete 2×3 room queried at four out-of-range
coordinates. -/
theorem getTile_out_of_bounds_witness :
    getTile ⟨2, 3, [[0, 0, 0], [0, 0, 0]]⟩ (-1) 0 = 1 ∧
    getTile ⟨2, 3, [[0, 0, 0], [0, 0, 0]]⟩ 3 1 = 1 ∧
    getTile ⟨2, 3, [[0, 0, 0], [0, 0, 0]]⟩ 0 (-7) = 1 ∧
    getTile ⟨2, 3, [[0, 0, 0], [0, 0, 0]]⟩ 1 2 = 1 :=
  ⟨getTile_out_of_bounds _ _ _ (Or.inl (by norm_num)),
   getTile_out_of_bounds _ _ _ (Or.inr (Or.inl (by norm_num))),
   getTile_out_of_bounds _ _ _ (Or.inr (Or.inr (Or.inl (by norm_num)))),
   getTile_out_of_bounds _ _ _ (Or.inr (Or.inr (Or.inr (by norm_num))))⟩

/-! ## C7: the shop purchase handler -/

/-- The effect payload of a shop item (`type`/`stat`/`value`/`action`/
`weapon` fields of the `SHOP_ITEMS` entries; the display name is a render
hint). -/
inductive ItemEffect
  | statMaxHp (value : ℤ)
  | heal
  | armor
  | weapon (w : String)
deriving DecidableEq

/-- One entry of the `SHOP_ITEMS` table. -/
structure ShopItem where
  id : String
  cost : ℤ
  effect : ItemEffect
deriving DecidableEq

/-- The `SHOP_ITEMS` table from the repository's constants module. -/
def SHOP_ITEMS : List ShopItem :=
  [⟨"hp_up", 20, ItemEffect.statMaxHp 1⟩,
   ⟨"heal", 10, ItemEffect.heal⟩,
   ⟨"armor", 30, ItemEffect.armor⟩,
   ⟨"shotgun", 40, ItemEffect.weapon "SHOTGUN"⟩,
   ⟨"machinegun", 60, ItemEffect.weapon "MACHINEGUN"⟩,
   ⟨"sword", 35, ItemEffect.weapon "SWORD"⟩]

/-- The core's shop purchase handler (`GameCanvas.tsx` lines 1053-1068):
look the item up by id; if found and `p.money >= item.cost`, debit the cost
and apply the item's effect (raise max and current hitpoints, full heal, set
the armor flag, or equip the weapon, adding it to the inventory only when not
already owned); otherwise do nothing. -/
def shopPurchase (p : Player) (id : String) : Player :=
  match SHOP_ITEMS.find? (fun i => i.id = id) with
  | none => p
  | some item =>
    if item.cost ≤ p.money then
      let p1 := { p with money := p.money - item.cost }
      match item.effect with
      | ItemEffect.statMaxHp v => { p1 with maxHp := p1.maxHp + v, hp := p1.hp + v }
      | ItemEffect.heal => { p1 with hp := p1.maxHp }
      | ItemEffect.armor => { p1 with hasArmor := true }
      | ItemEffect.weapon w =>
        { p1 with
            weapon := w
            inventory := if w ∈ p1.inventory then p1.inventory else p1.inventory ++ [w] }
    else p

/-- A concrete player who already owns and wields the shotgun, with plenty of
money. -/
def wShotgunPlayer : Player :=
  { x := 100, y := 100, w := 28, h := 36, vx := 0, vy := 0
    onGround := false, dead := false
    hp := 6, maxHp := 6, money := 100, facing := 1
    weapon := "SHOTGUN", inventory := ["PISTOL", "SHOTGUN"]
    hasArmor := false, invincibleTimer := 0, attackCooldown := 0 }

/-- Counterexample to C7 as stated: re-purchasing the weapon the player
already has equipped is NOT a silent no-op — the core still debits the item's
cost (100 − 40 = 60), so currency changes. -/
theorem shopPurchase_equipped_weapon_debits :
    wShotgunPlayer.weapon = "SHOTGUN" ∧
    wShotgunPlayer.money = 100 ∧
    (shopPurchase wShotgunPlayer "shotgun").money = 60 ∧
    shopPurchase wShotgunPlayer "shotgun" ≠ wShotgunPlayer := by
  refine ⟨rfl, rfl, rfl, ?_⟩
  intro h
  have := congrArg Player.money h
  simp [shopPurchase, wShotgunPlayer, SHOP_ITEMS, List.find?] at this

/-- C7 (amended): if the player's currency is at least the item's cost the
core debits exactly the cost and applies the item's effect; an unknown item
id or insufficient currency is a silent no-op.  Purchasing a weapon that is
already owned (equipped or not) still debits the cost, re-equips it and
leaves the inventory unchanged. -/
theorem shopPurchase_spec (p : Player) (item : ShopItem) :
    (∀ id, SHOP_ITEMS.find? (fun i => i.id = id) = none → shopPurchase p id = p) ∧
    (∀ id, SHOP_ITEMS.find? (fun i => i.id = id) = some item →
      (item.cost ≤ p.money →
        (shopPurchase p id).money = p.money - item.cost ∧
        ((∀ v, item.effect = ItemEffect.statMaxHp v →
            (shopPurchase p id).maxHp = p.maxHp + v ∧
            (shopPurchase p id).hp = p.hp + v) ∧
         (item.effect = ItemEffect.heal → (shopPurchase p id).hp = p.maxHp) ∧
         (item.effect = ItemEffect.armor → (shopPurchase p id).hasArmor = true) ∧
         (∀ w, item.effect = ItemEffect.weapon w →
            (shopPurchase p id).weapon = w ∧
            (w ∈ p.inventory → (shopPurchase p id).inventory = p.inventory)))) ∧
      (p.money < item.cost → shopPurchase p id = p)) := by
  constructor
  · intro id hnone
    simp [shopPurchase, hnone]
  · intro id hsome
    rcases item with ⟨iid, icost, ieff⟩
    constructor
    · intro hcost
      rcases ieff with v | _ | _ | w
      · refine ⟨by simp [shopPurchase, hsome, hcost], fun v' hv => ?_,
          by intro h; simp at h, by intro h; simp at h, by intro w' h; simp at h⟩
        cases hv
        exact ⟨by simp [shopPurchase, hsome, hcost], by simp [shopPurchase, hsome, hcost]⟩
      · exact ⟨by simp [shopPurchase, hsome, hcost], fun v' hv => by simp at hv,
          fun _ => by simp [shopPurchase, hsome, hcost],
          by intro h; simp at h, by intro w' h; simp at h⟩
      · exact ⟨by simp [shopPurchase, hsome, hcost], fun v' hv => by simp at hv,
          by intro h; simp at h, fun _ => by simp [shopPurchase, hsome, hcost],
          by intro w' h; simp at h⟩
      · refine ⟨by simp [shopPurchase, hsome, hcost], fun v' hv => by simp at hv,
          by intro h; simp at h, by intro h; simp at h, ?_⟩
        intro w' hw
        cases hw
        refine ⟨by simp [shopPurchase, hsome, hcost], fun hmem => ?_⟩
        simp [shopPurchase, hsome, hcost, hmem]
    · intro hcost
      have hcost' : p.money < icost := hcost
      have hn : ¬ icost ≤ p.money := by omega
      simp [shopPurchase, hsome, hn]

/-! ## C8: player hitpoints never exceed max hitpoints -/

/-- The HEART branch of the pickup handler in `updateEntities`
(`GameCanvas.tsx` lines 603-608), given that the player touches the heart:
heal 1 hitpoint only when below max. -/
def heartPickup (pl : Player) : Player :=
  if pl.hp < pl.maxHp then { pl with hp := pl.hp + 1 } else pl

/-- C8: the invariant `hp ≤ maxHp` is preserved by the heart-pickup heal, the
shop full-heal (`"heal"`), the shop max-hitpoint upgrade (`"hp_up"`), and
indeed by every shop purchase. -/
theorem hp_le_maxHp_preserved (p : Player) (h : p.hp ≤ p.maxHp) :
    (heartPickup p).hp ≤ (heartPickup p).maxHp ∧
    (shopPurchase p "heal").hp ≤ (shopPurchase p "heal").maxHp ∧
    (shopPurchase p "hp_up").hp ≤ (shopPurchase p "hp_up").maxHp ∧
    (∀ id, (shopPurchase p id).hp ≤ (shopPurchase p id).maxHp) := by
  have hgen : ∀ id, (shopPurchase p id).hp ≤ (shopPurchase p id).maxHp := by
    intro id
    rcases hfind : SHOP_ITEMS.find? (fun i => i.id = id) with _ | item
    · simpa [shopPurchase, hfind] using h
    · have hmem : item ∈ SHOP_ITEMS := List.mem_of_find?_eq_some hfind
      by_cases hc : item.cost ≤ p.money
      · simp only [SHOP_ITEMS, List.mem_cons, List.not_mem_nil, or_false] at hmem
        rcases hmem with h1 | h1 | h1 | h1 | h1 | h1 <;> subst h1 <;>
          simp [shopPurchase, hfind, hc] <;> omega
      · simpa [shopPurchase, hfind, hc] using h
  refine ⟨?_, hgen "heal", hgen "hp_up", hgen⟩
  by_cases hh : p.hp < p.maxHp <;> simp [heartPickup, hh] <;> omega

/-- A concrete wounded player with a full purse. -/
def wWoundedPlayer : Player :=
  { x := 100, y := 100, w := 28, h := 36, vx := 0, vy := 0
    onGround := false, dead := false
    hp := 2, maxHp := 6, money := 100, facing := 1
    weapon := "PISTOL", inventory := ["PISTOL"]
    hasArmor := false, invincibleTimer := 0, attackCooldown := 0 }

/-- Witness for C8: concrete evaluations of the three healing operations on a
wounded player. -/
theorem hp_le_maxHp_preserved_witness :
    (heartPickup wWoundedPlayer).hp ≤ (heartPickup wWoundedPlayer).maxHp ∧
    (shopPurchase wWoundedPlayer "heal").hp ≤ (shopPurchase wWoundedPlayer "heal").maxHp ∧
    (shopPurchase wWoundedPlayer "hp_up").hp ≤ (shopPurchase wWoundedPlayer "hp_up").maxHp ∧
    (heartPickup wWoundedPlayer).hp = 3 ∧
    (shopPurchase wWoundedPlayer "heal").hp = 6 ∧
    (shopPurchase wWoundedPlayer "hp_up").maxHp = 7 := by
  have h := hp_le_maxHp_preserved wWoundedPlayer (by decide)
  exact ⟨h.1, h.2.1, h.2.2.1, by decide, by decide, by decide⟩

/-- Witness for C7 (the amended statement): buying the full heal with exactly
enough money debits 10 and heals to max; with too little money nothing
changes; re-buying the equipped shotgun debits 40 and leaves the inventory
unchanged. -/
theorem shopPurchase_spec_witness :
    (shopPurchase { wWoundedPlayer with money := 10 } "heal").money = 0 ∧
    (shopPurchase { wWoundedPlayer with money := 10 } "heal").hp = 6 ∧
    shopPurchase { wWoundedPlayer with money := 9 } "heal" =
      { wWoundedPlayer with money := 9 } ∧
    (shopPurchase wShotgunPlayer "shotgun").money = 60 ∧
    (shopPurchase wShotgunPlayer "shotgun").weapon = "SHOTGUN" ∧
    (shopPurchase wShotgunPlayer "shotgun").inventory = wShotgunPlayer.inventory := by
  have hfind : SHOP_ITEMS.find? (fun i => i.id = "heal") =
      some ⟨"heal", 10, ItemEffect.heal⟩ := by rfl
  have hfind2 : SHOP_ITEMS.find? (fun i => i.id = "shotgun") =
      some ⟨"shotgun", 40, ItemEffect.weapon "SHOTGUN"⟩ := by rfl
  have h1 := (shopPurchase_spec { wWoundedPlayer with money := 10 }
    ⟨"heal", 10, ItemEffect.heal⟩).2 "heal" hfind
  have h2 := (shopPurchase_spec { wWoundedPlayer with money := 9 }
    ⟨"heal", 10, ItemEffect.heal⟩).2 "heal" hfind
  have h3 := (shopPurchase_spec wShotgunPlayer
    ⟨"shotgun", 40, ItemEffect.weapon "SHOTGUN"⟩).2 "shotgun" hfind2
  have h1s := h1.1 (by decide)
  have h3s := h3.1 (by decide)
  have h3w := h3s.2.2.2.2 "SHOTGUN" rfl
  refine ⟨h1s.1, h1s.2.2.1 rfl, h2.2 (by decide), h3s.1, h3w.1, h3w.2 (by decide)⟩

/-! ## C6: the invincibility window -/

/-- The hazard-tile damage branch of `updatePlayer` (`GameCanvas.tsx` lines
490-497), parameterised by the tile code under the player's feet. -/
def spikeDamage (p : Player) (tileUnderFoot : ℤ) : Player :=
  if tileUnderFoot = 3 ∧ p.invincibleTimer = 0 then
    { p with hp := p.hp - 1, invincibleTimer := 60 }
  else p

/-- The enemy-contact damage branch of `updateEntities` (lines 730-735),
parameterised by whether the enemy overlaps the player and by the enemy's
boss state (a sleeping terminal boss deals no contact damage). -/
def contactDamage (p : Player) (colliding : Bool) (enemyBossState : Option BossState) :
    Player :=
  if colliding = true ∧ p.invincibleTimer = 0 ∧ enemyBossState ≠ some BossState.SLEEP then
    { p with hp := p.hp - 1, invincibleTimer := 60 }
  else p

/-- The enemy-projectile damage branch of `updateEntities` (lines 756-766),
restricted to the player's fields (the projectile is marked dead regardless
of whether damage lands). -/
def projectileDamage (p : Player) (colliding : Bool) : Player :=
  if colliding = true ∧ p.invincibleTimer = 0 then
    { p with hp := p.hp - 1, invincibleTimer := 60 }
  else p

/-- The per-tick invincibility countdown (`if (p.invincibleTimer > 0)
p.invincibleTimer--`, line 481). -/
def tickInvincibility (p : Player) : Player :=
  if 0 < p.invincibleTimer then { p with invincibleTimer := p.invincibleTimer - 1 } else p

/-- The three damage paths, each with its landing condition satisfied:
standing on a spike tile (code 3), touching a non-sleeping enemy, and
overlapping an enemy projectile. -/
def damagePaths : List (Player → Player) :=
  [fun p => spikeDamage p 3,
   fun p => contactDamage p true none,
   fun p => projectileDamage p true]

lemma damagePaths_noop (q : Player) (h : 0 < q.invincibleTimer) :
    ∀ g ∈ damagePaths, g q = q := by
  have hne : ¬ q.invincibleTimer = 0 := by omega
  intro g hg
  simp only [damagePaths, List.mem_cons, List.not_mem_nil, or_false] at hg
  rcases hg with rfl | rfl | rfl <;>
    simp [spikeDamage, contactDamage, projectileDamage, hne]

lemma damagePaths_hit (q : Player) (h : q.invincibleTimer = 0) :
    ∀ f ∈ damagePaths, (f q).hp = q.hp - 1 ∧ (f q).invincibleTimer = 60 := by
  intro f hf
  simp only [damagePaths, List.mem_cons, List.not_mem_nil, or_false] at hf
  rcases hf with rfl | rfl | rfl <;>
    simp [spikeDamage, contactDamage, projectileDamage, h]

lemma tickInvincibility_iterate (k : ℕ) (q : Player) :
    (tickInvincibility^[k] q).hp = q.hp ∧
    (tickInvincibility^[k] q).invincibleTimer = q.invincibleTimer - k := by
  induction k generalizing q with
  | zero => simp
  | succ n ih =>
    rw [Function.iterate_succ_apply]
    rcases ih (tickInvincibility q) with ⟨ih1, ih2⟩
    by_cases hq : 0 < q.invincibleTimer
    · rw [ih1, ih2]
      constructor
      · simp [tickInvincibility, hq]
      · simp only [tickInvincibility, if_pos hq]
        omega
    · rw [ih1, ih2]
      constructor
      · simp [tickInvincibility, hq]
      · simp only [tickInvincibility, if_neg hq]
        omega

/-- C6: while the player's invincibility countdown is positive, none of the
three damage paths (hazard tile, enemy contact, enemy projectile) changes the
player at all; every landing hit takes exactly 1 hitpoint and resets the
countdown to the full 60-tick window; and two damage events separated by
fewer than 60 ticks cost exactly 1 hitpoint in total. -/
theorem invincibility_spec (p : Player) :
    (0 < p.invincibleTimer →
      (∀ t, spikeDamage p t = p) ∧
      (∀ c bs, contactDamage p c bs = p) ∧
      (∀ c, projectileDamage p c = p)) ∧
    (p.invincibleTimer = 0 →
      ∀ f ∈ damagePaths, (f p).hp = p.hp - 1 ∧ (f p).invincibleTimer = 60) ∧
    (p.invincibleTimer = 0 →
      ∀ f ∈ damagePaths, ∀ g ∈ damagePaths, ∀ k : ℕ, k < 60 →
        (g (tickInvincibility^[k] (f p))).hp = p.hp - 1 ∧
        (g (tickInvincibility^[k] (f p))).invincibleTimer = 60 - k) := by
  refine ⟨?_, damagePaths_hit p, ?_⟩
  · intro h
    have hne : ¬ p.invincibleTimer = 0 := by omega
    exact ⟨fun t => by simp [spikeDamage, hne],
      fun c bs => by simp [contactDamage, hne],
      fun c => by simp [projectileDamage, hne]⟩
  · intro h f hf g hg k hk
    rcases damagePaths_hit p h f hf with ⟨hhp, htm⟩
    rcases tickInvincibility_iterate k (f p) with ⟨ti1, ti2⟩
    have htmk : (tickInvincibility^[k] (f p)).invincibleTimer = 60 - k := by
      rw [ti2, htm]
    have hpos : 0 < (tickInvincibility^[k] (f p)).invincibleTimer := by omega
    rw [damagePaths_noop _ hpos g hg, ti1, hhp, htmk]
    exact ⟨rfl, rfl⟩

/-- Witness for C6: a concrete hit on an unprotected player (projectile),
followed 30 ticks later by an enemy-contact event, loses exactly 1 hitpoint
in total and leaves 30 ticks of invincibility; a spike under an invincible
player does nothing. -/
theorem invincibility_spec_witness :
    (contactDamage (tickInvincibility^[30] (projectileDamage wWoundedPlayer true))
      true none).hp = 1 ∧
    (contactDamage (tickInvincibility^[30] (projectileDamage wWoundedPlayer true))
      true none).invincibleTimer = 30 ∧
    spikeDamage { wWoundedPlayer with invincibleTimer := 60 } 3 =
      { wWoundedPlayer with invincibleTimer := 60 } := by
  have h := invincibility_spec wWoundedPlayer
  have h2 := h.2.2 (by decide)
    (fun p => projectileDamage p true)
    (List.Mem.tail _ (List.Mem.tail _ (List.Mem.head _)))
    (fun p => contactDamage p true none)
    (List.Mem.tail _ (List.Mem.head _))
    30 (by decide)
  have h3 := invincibility_spec { wWoundedPlayer with invincibleTimer := 60 }
  exact ⟨h2.1, h2.2, (h3.1 (by decide)).1 3⟩

/-! ## C9: currency and heal pickup placement -/

/-- The currency-pickup loop in `initLevel` (line 349):
`for (let k = 0; k < Math.random()*4; k++) { ...push MONEY... }`.
The loop guard calls `Math.random()` afresh on every check, so iteration `k`
runs exactly when `k < 4 * draws k`.  Because every draw lies in `[0, 1)`,
the guard at `k = 4` always fails, so the loop cannot run past 4 pushes; the
model enumerates the first 5 candidate indices (the proofs show index 4 is
never reached for draws `< 1`). -/
def coinPlacements (draws : ℕ → ℚ) : ℕ :=
  ((List.range 5).takeWhile (fun k : ℕ => decide ((k : ℚ) < 4 * draws k))).length

/-- The heal-pickup placement in `initLevel` (lines 343-348): a single heart
entity iff the draw is below 0.4. -/
def healPlacements (r : ℚ) : ℕ :=
  if r < 2 / 5 then 1 else 0

/-- C9 (amended): for draws in `[0, 1)` (the range of `Math.random()`), the
number of currency pickups placed is between 0 and 4 inclusive — the loop
guard `k < Math.random()*4` can pass for `k = 0,1,2,3` but never for `k = 4`
— and at most one heal pickup is placed. -/
theorem coinPlacements_le_four (draws : ℕ → ℚ) (r : ℚ)
    (hd : ∀ i, 0 ≤ draws i ∧ draws i < 1) :
    coinPlacements draws ≤ 4 ∧
    ¬ ((4 : ℚ) < 4 * draws 4) ∧
    healPlacements r ≤ 1 := by
  have h4 : ¬ ((4 : ℚ) < 4 * draws 4) := by
    have := (hd 4).2
    nlinarith
  refine ⟨?_, h4, ?_⟩
  · unfold coinPlacements
    have hr : List.range 5 = [0, 1, 2, 3, 4] := rfl
    rw [hr]
    simp only [List.takeWhile_cons]
    by_cases h0 : (0 : ℚ) < 4 * draws 0 <;>
      by_cases h1 : (1 : ℚ) < 4 * draws 1 <;>
        by_cases h2 : (2 : ℚ) < 4 * draws 2 <;>
          by_cases h3 : (3 : ℚ) < 4 * draws 3 <;>
            simp [h0, h1, h2, h3, h4]
  · unfold healPlacements
    split <;> omega

/-- Counterexample to C9 as stated ("between 0 and 3 inclusive"): with every
draw equal to 0.9 — a legal `Math.random()` outcome — the guard passes for
k = 0, 1, 2, 3 (each `k < 3.6`), so exactly 4 currency pickups are placed. -/
theorem coinPlacements_four_counterexample :
    coinPlacements (fun _ => 9 / 10) = 4 ∧
    ¬ (coinPlacements (fun _ => 9 / 10) ≤ 3) ∧
    (0 : ℚ) ≤ 9 / 10 ∧ (9 : ℚ) / 10 < 1 := by
  have hval : coinPlacements (fun _ => 9 / 10) = 4 := by
    unfold coinPlacements
    rw [show List.range 5 = [0, 1, 2, 3, 4] from rfl]
    norm_num [List.takeWhile_cons]
  exact ⟨hval, by omega, by norm_num, by norm_num⟩

/-- Witness for C9 (the amended bound): with every draw equal to 0.5, the
placement counts respect the bounds. -/
theorem coinPlacements_le_four_witness :
    coinPlacements (fun _ => 1 / 2) ≤ 4 ∧ healPlacements (1 / 2) ≤ 1 := by
  have h := coinPlacements_le_four (fun _ => 1 / 2) (1 / 2)
    (fun i => ⟨by norm_num, by norm_num⟩)
  exact ⟨h.1, h.2.2⟩

/-! ## C10: player projectiles hit every overlapping hostile entity -/

/-- The entity-type filter applied before hit scans:
`e.type !== 'SHOPKEEPER' && e.type !== 'HEART' && e.type !== 'MONEY'`
(note: dead entities are NOT filtered out here). -/
def hostileType (t : String) : Bool :=
  if t = "SHOPKEEPER" ∨ t = "HEART" ∨ t = "MONEY" then false else true

/-- One step of the player-projectile hit scan (`GameCanvas.tsx` lines
749-755) over one entity: if the entity passes the type filter and overlaps
the projectile, the projectile is marked dead and `damageEnemy` is applied;
otherwise the entity passes through untouched.  The accumulator carries the
projectile's dead flag, the processed entities and the shared context. -/
def projHitStep (difficulty : Difficulty) (p : Projectile)
    (acc : Bool × List Enemy × DamageCtx) (e : Enemy) : Bool × List Enemy × DamageCtx :=
  if hostileType e.type = true ∧ checkCollision p.box e.box = true then
    let r := damageEnemy difficulty e p.damage acc.2.2
    (true, acc.2.1 ++ [r.1], r.2)
  else
    (acc.1, acc.2.1 ++ [e], acc.2.2)

/-- The full player-projectile hit scan over the entity list: the `forEach`
keeps scanning after the projectile is marked dead. -/
def projHitScan (difficulty : Difficulty) (p : Projectile) (es : List Enemy)
    (ctx : DamageCtx) : Projectile × List Enemy × DamageCtx :=
  let out := es.foldl (projHitStep difficulty p) (p.dead, [], ctx)
  ({ p with dead := out.1 }, out.2.1, out.2.2)

/-- The end-of-tick projectile filter pass (line 768):
`game.projectiles = game.projectiles.filter(p => !p.dead)`. -/
def removeDeadProjectiles (ps : List Projectile) : List Projectile :=
  ps.filter (fun p => !p.dead)

/-- The enemy returned by `damageEnemy` does not depend on the shared
context. -/
lemma damageEnemy_fst_ctx (difficulty : Difficulty) (e : Enemy) (amt : ℚ)
    (ctx ctx' : DamageCtx) :
    (damageEnemy difficulty e amt ctx).1 = (damageEnemy difficulty e amt ctx').1 := by
  unfold damageEnemy
  by_cases h1 : e.isBoss = true ∧ e.type = "IMPOSSIBLE_FINAL_BOSS"
  · by_cases h2 : e.bossState ≠ some BossState.SLEEP
    · simp [h1, h2]
    · by_cases h3 : e.hp - 1 ≤ 0 <;> simp [h1, h2, h3]
  · by_cases h3 : e.hp - amt ≤ 0 <;> simp [h1, h3]

lemma projHitScan_enemies_aux (difficulty : Difficulty) (p : Projectile)
    (ctx0 : DamageCtx) (es : List Enemy) :
    ∀ (b : Bool) (l : List Enemy) (c : DamageCtx),
      (∀ e ∈ es, hostileType e.type = true ∧ checkCollision p.box e.box = true) →
      (es.foldl (projHitStep difficulty p) (b, l, c)).2.1 =
        l ++ es.map (fun e => (damageEnemy difficulty e p.damage ctx0).1) := by
  induction es with
  | nil => intro b l c _; simp
  | cons e tl ih =>
    intro b l c hall
    have he := hall e (List.mem_cons_self e tl)
    rw [List.foldl_cons,
      show projHitStep difficulty p (b, l, c) e =
        (true, l ++ [(damageEnemy difficulty e p.damage c).1],
         (damageEnemy difficulty e p.damage c).2) from by
        unfold projHitStep; rw [if_pos he],
      ih true _ _ (fun e' he' => hall e' (List.mem_cons_of_mem _ he')),
      damageEnemy_fst_ctx difficulty e p.damage c ctx0]
    simp

lemma projHitScan_flag_aux (difficulty : Difficulty) (p : Projectile)
    (es : List Enemy) :
    ∀ (b : Bool) (l : List Enemy) (c : DamageCtx),
      (∀ e ∈ es, hostileType e.type = true ∧ checkCollision p.box e.box = true) →
      (es.foldl (projHitStep difficulty p) (b, l, c)).1 = (b || !es.isEmpty) := by
  induction es with
  | nil => intro b l c _; simp
  | cons e tl ih =>
    intro b l c hall
    have he := hall e (List.mem_cons_self e tl)
    rw [List.foldl_cons,
      show projHitStep difficulty p (b, l, c) e =
        (true, l ++ [(damageEnemy difficulty e p.damage c).1],
         (damageEnemy difficulty e p.damage c).2) from by
        unfold projHitStep; rw [if_pos he],
      ih true _ _ (fun e' he' => hall e' (List.mem_cons_of_mem _ he'))]
    simp

/-- C10: a player projectile that overlaps several hostile entities in the
same tick applies its damage via `damageEnemy` to EVERY one of them (the
per-entity scan does not stop when the projectile is marked dead), and the
projectile is removed only by the end-of-tick filter pass. -/
theorem projectile_pierces_all (difficulty : Difficulty) (p : Projectile)
    (es : List Enemy) (ctx : DamageCtx)
    (hall : ∀ e ∈ es, hostileType e.type = true ∧ checkCollision p.box e.box = true) :
    (projHitScan difficulty p es ctx).2.1 =
      es.map (fun e => (damageEnemy difficulty e p.damage ctx).1) ∧
    (es ≠ [] → (projHitScan difficulty p es ctx).1.dead = true) ∧
    (es = [] → (projHitScan difficulty p es ctx).1.dead = p.dead) ∧
    (es ≠ [] →
      removeDeadProjectiles [(projHitScan difficulty p es ctx).1] = []) := by
  have hflag := projHitScan_flag_aux difficulty p es p.dead [] ctx hall
  have henem := projHitScan_enemies_aux difficulty p ctx es p.dead [] ctx hall
  refine ⟨?_, ?_, ?_, ?_⟩
  · unfold projHitScan
    rw [henem]
    simp
  · intro hne
    unfold projHitScan
    simp only [hflag]
    simp [List.isEmpty_iff, hne]
  · intro hnil
    subst hnil
    unfold projHitScan
    simp only [hflag]
    simp
  · intro hne
    have hd : (projHitScan difficulty p es ctx).1.dead = true := by
      unfold projHitScan
      simp only [hflag]
      simp [List.isEmpty_iff, hne]
    simp [removeDeadProjectiles, hd]

/-- A concrete player projectile. -/
def wProj : Projectile :=
  { x := 10, y := 10, w := 6, h := 6, vx := 0, vy := 0, onGround := false
    dead := false, damage := 3, owner := "player", lifetime := 120 }

/-- A concrete basic enemy overlapping `wProj`. -/
def wEnemyA : Enemy :=
  { x := 8, y := 8, w := 30, h := 30, vx := 0, vy := 0, onGround := false
    dead := false, type := "NORMAL", maxHp := 10, hp := 10, damage := 1
    speed := 3 / 2, patrolDir := 1, hitTimer := 0, isBoss := false
    attackCooldown := 30, bossState := none, sleepTimer := 0, attackCount := 0 }

/-- A second overlapping enemy at lower health. -/
def wEnemyB : Enemy := { wEnemyA with x := 12, hp := 4 }

/-- Witness for C10: a projectile of damage 3 overlapping two hostile enemies
damages both in the same tick (10 → 7 and 4 → 1), is marked dead, and is
removed by the end-of-tick filter pass. -/
theorem projectile_pierces_all_witness :
    ((projHitScan Difficulty.NORMAL wProj [wEnemyA, wEnemyB] wCtx).2.1).map Enemy.hp =
      [7, 1] ∧
    (projHitScan Difficulty.NORMAL wProj [wEnemyA, wEnemyB] wCtx).1.dead = true ∧
    removeDeadProjectiles
      [(projHitScan Difficulty.NORMAL wProj [wEnemyA, wEnemyB] wCtx).1] = [] := by
  have hall : ∀ e ∈ [wEnemyA, wEnemyB],
      hostileType e.type = true ∧ checkCollision wProj.box e.box = true := by
    intro e he
    simp only [List.mem_cons, List.not_mem_nil, or_false] at he
    rcases he with rfl | rfl <;>
      refine ⟨by decide, ?_⟩ <;>
        norm_num [checkCollision, Projectile.box, Enemy.box, wProj, wEnemyA, wEnemyB]
  have h := projectile_pierces_all Difficulty.NORMAL wProj [wEnemyA, wEnemyB] wCtx hall
  refine ⟨?_, h.2.1 (by simp), h.2.2.2 (by simp)⟩
  rw [h.1]
  norm_num [damageEnemy, wEnemyA, wEnemyB, wProj]

/-! ## C4: the physics step and one-way platforms -/

/-- A moving rectangular body: the subset of entity fields that
`updatePhysics` reads and writes. -/
structure Body where
  x : ℚ
  y : ℚ
  w : ℚ
  h : ℚ
  vx : ℚ
  vy : ℚ
  onGround : Bool
  dead : Bool
deriving DecidableEq

/-- `Math.floor(q / CONFIG.TILE_SIZE)`. -/
def tileIdx (q : ℚ) : ℤ := ⌊q / TILE_SIZE⌋

/-- Inclusive integer range `a..b` (the `for (i = a; i <= b; i++)` loops). -/
def intRange (a b : ℤ) : List ℤ :=
  (List.range (b + 1 - a).toNat).map (fun i => a + i)

/-- The `for (y …) for (x …)` enumeration of the scanned tile rectangle, as
(y, x) pairs in source order. -/
def rectList (y1 y2 x1 x2 : ℤ) : List (ℤ × ℤ) :=
  (intRange y1 y2).bind (fun y => (intRange x1 x2).map (fun x => (y, x)))

/-- The tile rectangle overlapped by a body (`tx1/tx2/ty1/ty2` with the 0.1
inset on the far edges). -/
def scanRect (b : Body) : List (ℤ × ℤ) :=
  rectList (tileIdx b.y) (tileIdx (b.y + b.h - 1 / 10))
    (tileIdx b.x) (tileIdx (b.x + b.w - 1 / 10))

/-- Horizontal collision resolution against one scanned tile
(`GameCanvas.tsx` lines 369-377): solid tiles snap the body to the tile edge
facing its motion and zero the horizontal velocity. -/
def horizStep (room : Room) (b : Body) (p : ℤ × ℤ) : Body :=
  if getTile room p.2 p.1 = 1 then
    if 0 < b.vx then { b with x := (p.2 : ℚ) * TILE_SIZE - b.w, vx := 0 }
    else if b.vx < 0 then { b with x := ((p.2 : ℚ) + 1) * TILE_SIZE, vx := 0 }
    else { b with vx := 0 }
  else b

/-- Vertical collision resolution against one scanned tile (lines 387-409,
with the tile code `t` and `tileTop = y * TILE_SIZE` inlined): a one-way
platform (code 2) halts only downward motion arriving from at or above its
top edge; a solid tile (code 1) halts both directions. -/
def vertStep (room : Room) (b : Body) (p : ℤ × ℤ) : Body :=
  if getTile room p.2 p.1 = 1 ∨ getTile room p.2 p.1 = 2 then
    if getTile room p.2 p.1 = 2 then
      if 0 < b.vy ∧ b.y + b.h - b.vy ≤ (p.1 : ℚ) * TILE_SIZE then
        { b with y := (p.1 : ℚ) * TILE_SIZE - b.h, vy := 0, onGround := true }
      else b
    else
      if 0 < b.vy then
        { b with y := (p.1 : ℚ) * TILE_SIZE - b.h, onGround := true, vy := 0 }
      else if b.vy < 0 then { b with y := ((p.1 : ℚ) + 1) * TILE_SIZE, vy := 0 }
      else { b with vy := 0 }
  else b

/-- `updatePhysics(entity)` (lines 358-410): on a live body, apply gravity
(clamped to the maximum fall speed), integrate x and resolve horizontally
over the scanned rectangle, then integrate y, clear the grounded flag and
resolve vertically over the re-scanned rectangle. -/
def stepPhysics (room : Room) (e : Body) : Body :=
  if e.dead = true then e
  else
    let b0 := { e with vy := min (e.vy + GRAVITY) MAX_VEL_Y, x := e.x + e.vx }
    let b1 := (scanRect b0).foldl (horizStep room) b0
    let b2 := { b1 with y := b1.y + b1.vy }
    (scanRect b2).foldl (vertStep room) { b2 with onGround := false }

lemma horizStep_vx_zero (room : Room) (b : Body) (p : ℤ × ℤ) (h : b.vx = 0) :
    horizStep room b p = b := by
  unfold horizStep
  by_cases ht : getTile room p.2 p.1 = 1
  · rw [if_pos ht, if_neg (by rw [h]; exact lt_irrefl 0),
      if_neg (by rw [h]; exact lt_irrefl 0), ← h]
  · rw [if_neg ht]

lemma vertStep_zero_tile (room : Room) (b : Body) (p : ℤ × ℤ)
    (h : getTile room p.2 p.1 = 0) : vertStep room b p = b := by
  unfold vertStep
  rw [h]
  norm_num

lemma vertStep_platform (room : Room) (b : Body) (p : ℤ × ℤ)
    (h : getTile room p.2 p.1 = 2) :
    vertStep room b p =
      if 0 < b.vy ∧ b.y + b.h - b.vy ≤ (p.1 : ℚ) * TILE_SIZE then
        { b with y := (p.1 : ℚ) * TILE_SIZE - b.h, vy := 0, onGround := true }
      else b := by
  unfold vertStep
  rw [h, if_pos (Or.inr rfl : (2 : ℤ) = 1 ∨ (2 : ℤ) = 2), if_pos (rfl : (2 : ℤ) = 2)]

/-- Folding a function that fixes the initial state is the identity. -/
lemma foldl_fixed {α β : Type} (f : α → β → α) (l : List β) (b : α)
    (hid : ∀ q ∈ l, f b q = b) : l.foldl f b = b := by
  induction l with
  | nil => rfl
  | cons a tl ih =>
    rw [List.foldl_cons, hid a (List.mem_cons_self a tl)]
    exact ih (fun q hq => hid q (List.mem_cons_of_mem _ hq))

/-- Folding over a list whose elements other than the single occurrence of
`p` act as the identity on every state computes just the step at `p`. -/
lemma foldl_single {α : Type} (f : α → (ℤ × ℤ) → α) (l : List (ℤ × ℤ)) (p : ℤ × ℤ)
    (hid : ∀ q ∈ l, q ≠ p → ∀ b, f b q = b) (hone : l.count p = 1) (b : α) :
    l.foldl f b = f b p := by
  induction l generalizing b with
  | nil => simp at hone
  | cons a tl ih =>
    by_cases hap : a = p
    · subst hap
      have htl : tl.count a = 0 := by
        have := hone
        rw [List.count_cons_self] at this
        omega
      have hnotin : a ∉ tl := List.count_eq_zero.mp htl
      rw [List.foldl_cons]
      apply foldl_fixed
      intro q hq
      exact hid q (List.mem_cons_of_mem _ hq)
        (fun hqa => hnotin (hqa ▸ hq)) (f b a)
    · rw [List.foldl_cons, hid a (List.mem_cons_self a tl) hap b]
      apply ih
      · intro q hq hqp
        exact hid q (List.mem_cons_of_mem _ hq) hqp
      · rw [List.count_cons_of_ne (show p ≠ a from fun h => hap h.symm)] at hone
        exact hone

/-- The clamped post-gravity vertical velocity
`min(vy + CONFIG.GRAVITY, CONFIG.MAX_VEL_Y)`. -/
def fallVel (e : Body) : ℚ := min (e.vy + GRAVITY) MAX_VEL_Y

/-- The body after gravity and vertical integration (with zero horizontal
velocity the horizontal pass leaves position untouched). -/
def vertMoved (e : Body) : Body :=
  { e with vy := fallVel e, y := e.y + fallVel e }

/-- On a live body with zero horizontal velocity, the physics step reduces to
the vertical pass over the moved body's scan rectangle. -/
lemma stepPhysics_vx_zero (room : Room) (e : Body)
    (hdead : e.dead = false) (hvx : e.vx = 0) :
    stepPhysics room e =
      (scanRect (vertMoved e)).foldl (vertStep room)
        { vertMoved e with onGround := false } := by
  have hx : e.x + e.vx = e.x := by rw [hvx, add_zero]
  have hguard : ¬ (e.dead = true) := by rw [hdead]; exact Bool.false_ne_true
  have hfold : (scanRect { e with vy := fallVel e, x := e.x + e.vx }).foldl
        (horizStep room) { e with vy := fallVel e, x := e.x + e.vx } =
      { e with vy := fallVel e, x := e.x + e.vx } :=
    foldl_fixed _ _ _ (fun q _ => horizStep_vx_zero room _ q hvx)
  unfold stepPhysics
  rw [if_neg hguard]
  simp only []
  rw [show min (e.vy + GRAVITY) MAX_VEL_Y = fallVel e from rfl, hfold, hx]
  rfl

/-- C4: for every live body processed by the physics step with no horizontal
motion, whose (post-move) scan rectangle contains exactly one non-empty tile,
a one-way platform (code 2) at (cx, cy): if the body is falling
(post-gravity vy > 0) and its previous-frame bottom edge was at or above the
platform top, it is snapped so its bottom rests exactly on the platform top,
with vertical velocity zeroed and the grounded flag set; if it is moving
upward, or arrives with its previous bottom edge below the platform top, it
passes through the tile unobstructed. -/
theorem oneWayPlatform_spec (room : Room) (e : Body) (cy cx : ℤ)
    (hdead : e.dead = false) (hvx : e.vx = 0)
    (hplat : getTile room cx cy = 2)
    (hone : (scanRect (vertMoved e)).count (cy, cx) = 1)
    (hothers : ∀ q ∈ scanRect (vertMoved e),
      q ≠ (cy, cx) → getTile room q.2 q.1 = 0) :
    (0 < fallVel e ∧ e.y + e.h ≤ (cy : ℚ) * TILE_SIZE →
      (stepPhysics room e).y = (cy : ℚ) * TILE_SIZE - e.h ∧
      (stepPhysics room e).vy = 0 ∧
      (stepPhysics room e).onGround = true ∧
      (stepPhysics room e).x = e.x) ∧
    (fallVel e < 0 →
      (stepPhysics room e).y = e.y + fallVel e ∧
      (stepPhysics room e).vy = fallVel e ∧
      (stepPhysics room e).onGround = false ∧
      (stepPhysics room e).x = e.x) ∧
    (0 < fallVel e ∧ (cy : ℚ) * TILE_SIZE < e.y + e.h →
      (stepPhysics room e).y = e.y + fallVel e ∧
      (stepPhysics room e).vy = fallVel e ∧
      (stepPhysics room e).onGround = false ∧
      (stepPhysics room e).x = e.x) := by
  have hstep : stepPhysics room e =
      vertStep room { vertMoved e with onGround := false } (cy, cx) := by
    rw [stepPhysics_vx_zero room e hdead hvx]
    exact foldl_single (vertStep room) _ (cy, cx)
      (fun q hq hne b => vertStep_zero_tile room b q (hothers q hq hne)) hone _
  have hcond : (0 < ({ vertMoved e with onGround := false } : Body).vy ∧
      ({ vertMoved e with onGround := false } : Body).y +
        ({ vertMoved e with onGround := false } : Body).h -
        ({ vertMoved e with onGround := false } : Body).vy ≤
          ((((cy, cx) : ℤ × ℤ).1 : ℚ)) * TILE_SIZE) ↔
      (0 < fallVel e ∧ e.y + e.h ≤ (cy : ℚ) * TILE_SIZE) := by
    show (0 < fallVel e ∧ e.y + fallVel e + e.h - fallVel e ≤ (cy : ℚ) * TILE_SIZE) ↔ _
    constructor <;> rintro ⟨h1, h2⟩ <;> exact ⟨h1, by linarith⟩
  have hb3 : vertStep room { vertMoved e with onGround := false } (cy, cx) =
      (if 0 < fallVel e ∧ e.y + e.h ≤ (cy : ℚ) * TILE_SIZE then
        { e with vy := 0, y := (cy : ℚ) * TILE_SIZE - e.h, onGround := true }
      else { vertMoved e with onGround := false }) := by
    rw [vertStep_platform room _ (cy, cx) hplat]
    exact if_congr hcond rfl rfl
  refine ⟨?_, ?_, ?_⟩
  · intro hc
    rw [hstep, hb3, if_pos hc]
    exact ⟨rfl, rfl, rfl, rfl⟩
  · intro hc
    have hnc : ¬ (0 < fallVel e ∧ e.y + e.h ≤ (cy : ℚ) * TILE_SIZE) := by
      intro h2
      linarith [h2.1]
    rw [hstep, hb3, if_neg hnc]
    exact ⟨rfl, rfl, rfl, rfl⟩
  · intro hc
    have hnc : ¬ (0 < fallVel e ∧ e.y + e.h ≤ (cy : ℚ) * TILE_SIZE) := by
      intro h2
      linarith [h2.2, hc.2]
    rw [hstep, hb3, if_neg hnc]
    exact ⟨rfl, rfl, rfl, rfl⟩

/-- A concrete 7×4 room with a single one-way platform at column 2, row 5. -/
def wRoom : Room :=
  ⟨7, 4,
   [[0, 0, 0, 0], [0, 0, 0, 0], [0, 0, 0, 0], [0, 0, 0, 0], [0, 0, 0, 0],
    [0, 0, 2, 0], [0, 0, 0, 0]]⟩

/-- A concrete falling body above the platform (bottom edge at 196, platform
top at 200, falling at 4 + gravity 0.8 = 4.8 per tick). -/
def wBody : Body :=
  { x := 85, y := 160, w := 28, h := 36, vx := 0, vy := 4
    onGround := false, dead := false }

lemma wBody_fallVel : fallVel wBody = 24 / 5 := by
  show min ((4 : ℚ) + GRAVITY) MAX_VEL_Y = 24 / 5
  rw [GRAVITY, MAX_VEL_Y, min_eq_left (by norm_num)]
  norm_num

lemma wBody_scanRect : scanRect (vertMoved wBody) = [(4, 2), (5, 2)] := by
  have hy : (vertMoved wBody).y = 824 / 5 := by
    show (160 : ℚ) + fallVel wBody = 824 / 5
    rw [wBody_fallVel]
    norm_num
  have hh : (vertMoved wBody).h = 36 := rfl
  have hxx : (vertMoved wBody).x = 85 := rfl
  have hw : (vertMoved wBody).w = 28 := rfl
  unfold scanRect
  rw [hy, hh, hxx, hw]
  rw [show tileIdx ((824 : ℚ) / 5) = 4 from
      Int.floor_eq_iff.mpr (by constructor <;> norm_num [TILE_SIZE]),
    show tileIdx ((824 : ℚ) / 5 + 36 - 1 / 10) = 5 from
      Int.floor_eq_iff.mpr (by constructor <;> norm_num [TILE_SIZE]),
    show tileIdx ((85 : ℚ)) = 2 from
      Int.floor_eq_iff.mpr (by constructor <;> norm_num [TILE_SIZE]),
    show tileIdx ((85 : ℚ) + 28 - 1 / 10) = 2 from
      Int.floor_eq_iff.mpr (by constructor <;> norm_num [TILE_SIZE])]
  rfl

/-- Witness for C4: the concrete falling body lands exactly on the concrete
platform's top edge (y = 5·40 − 36 = 164) with vertical velocity zeroed, the
grounded flag set and its horizontal position untouched. -/
theorem oneWayPlatform_spec_witness :
    (stepPhysics wRoom wBody).y = 164 ∧
    (stepPhysics wRoom wBody).vy = 0 ∧
    (stepPhysics wRoom wBody).onGround = true ∧
    (stepPhysics wRoom wBody).x = 85 := by
  have h := oneWayPlatform_spec wRoom wBody 5 2 rfl rfl (by decide)
    (by rw [wBody_scanRect]; decide)
    (by
      intro q hq hne
      rw [wBody_scanRect] at hq
      simp only [List.mem_cons, List.not_mem_nil, or_false] at hq
      rcases hq with rfl | rfl
      · decide
      · exact absurd rfl hne)
  have hc := h.1 ⟨by rw [wBody_fallVel]; norm_num,
    by show (160 : ℚ) + 36 ≤ ((5 : ℤ) : ℚ) * TILE_SIZE; norm_num [TILE_SIZE]⟩
  refine ⟨?_, hc.2.1, hc.2.2.1, hc.2.2.2⟩
  rw [hc.1]
  norm_num [TILE_SIZE, wBody]

end Caleb
